import Mathlib

/-!
DynamicProductForm (src/dynamic/dynamic-form/src/App.jsx)

A shallow embedding of the cascading product form: the `formData` state object, the
static option catalog (`deviceTypes`, `manufacturers`, `specificationFields`), the
four event handlers and the conditional rendering of the JSX tree.

Modelling conventions.

* JavaScript strings are `String`; a string is truthy exactly when it is not `""`.
* A plain object with string values (`formData.specifications`) is an association
  list in property-insertion order.  `JsObject.get` is property lookup (`none` is
  `undefined`), `JsObject.set` is what the object literal
  `{ ...obj, [key]: value }` builds: an existing property keeps its place and takes
  the new value, a new property goes to the end.  (JavaScript lists integer-like keys
  first; no field name of the catalog is one, and no statement below depends on the
  order of an object that holds such a key.)
* A catalog table (`manufacturers`, `specificationFields`) is a lookup returning
  `Option`; `none` stands for `undefined`, on which the `.map(...)` call of the
  renderer throws.
* React state: each handler runs against the `formData` of the last render and the
  value passed to `setFormData` is the next state, so a handler is a function from
  the old state (and the event payload) to the new state.
* Form submission: `handleSubmit` is the `onSubmit` handler of the form, which fires
  on a click of the submit button when no select carrying the `required` attribute
  has the blank placeholder selected.
-/

namespace DynamicProductForm

/-! ## Plain objects -/

/-- A plain JavaScript object whose property values are strings, in insertion order. -/
abbrev JsObject := List (String × String)

namespace JsObject

/-- Property read `obj[key]`; `none` is `undefined`. -/
def get : JsObject → String → Option String
  | [], _ => none
  | (k, v) :: rest, key => if k = key then some v else get rest key

/-- The object `{ ...obj, [key]: value }`. -/
def set : JsObject → String → String → JsObject
  | [], key, value => [(key, value)]
  | (k, v) :: rest, key, value =>
      if k = key then (k, value) :: rest else (k, v) :: set rest key value

/-- The array `Object.keys(obj)`. -/
def keys (obj : JsObject) : List String := obj.map Prod.fst

end JsObject

/-- Truthiness of a JavaScript string. -/
def truthy (s : String) : Bool := decide (s ≠ "")

/-! ## State and catalog -/

/-- The `formData` state object. -/
structure Selection where
  deviceType : String
  manufacturer : String
  specifications : JsObject
  deriving DecidableEq, Repr

/-- The argument of `useState`: the state at mount. -/
def initialFormData : Selection :=
  { deviceType := "", manufacturer := "", specifications := [] }

/-- One element of a `specificationFields` array. -/
structure FieldDescriptor where
  name : String
  label : String
  type : String
  options : List String
  deriving DecidableEq, Repr

/-- The array `deviceTypes`. -/
def deviceTypes : List String := ["Laptop", "Monitor", "Mouse", "Keyboard"]

/-- The table `manufacturers`, read as `manufacturers[deviceType]`. -/
def manufacturers (deviceType : String) : Option (List String) :=
  if deviceType = "Laptop" then some ["Dell", "HP", "Apple", "Lenovo", "ASUS"]
  else if deviceType = "Monitor" then some ["Samsung", "LG", "ASUS", "Dell", "BenQ"]
  else if deviceType = "Mouse" then some ["Logitech", "Razer", "Microsoft", "SteelSeries"]
  else if deviceType = "Keyboard" then some ["Logitech", "Corsair", "Razer", "Keychron"]
  else none

/-- The table `specificationFields`, read as `specificationFields[deviceType]`. -/
def specificationFields (deviceType : String) : Option (List FieldDescriptor) :=
  if deviceType = "Laptop" then some [
    { name := "processor", label := "Processor", type := "select",
      options := ["Intel i5", "Intel i7", "Intel i9", "AMD Ryzen 5", "AMD Ryzen 7"] },
    { name := "ram", label := "RAM (GB)", type := "select",
      options := ["8", "16", "32", "64"] },
    { name := "storage", label := "Storage (GB)", type := "select",
      options := ["256", "512", "1024", "2048"] },
    { name := "screenSize", label := "Screen Size (inches)", type := "select",
      options := ["13", "14", "15.6", "16", "17"] }]
  else if deviceType = "Monitor" then some [
    { name := "screenSize", label := "Screen Size (inches)", type := "select",
      options := ["24", "27", "32", "34", "49"] },
    { name := "resolution", label := "Resolution", type := "select",
      options := ["1080p", "2K", "4K", "5K", "Ultrawide"] },
    { name := "refreshRate", label := "Refresh Rate (Hz)", type := "select",
      options := ["60", "75", "144", "165", "240"] }]
  else if deviceType = "Mouse" then some [
    { name := "dpi", label := "DPI", type := "select",
      options := ["800", "1600", "3200", "6400", "12000"] },
    { name := "connectivity", label := "Connectivity", type := "select",
      options := ["Wired", "Wireless", "Bluetooth"] },
    { name := "buttons", label := "Number of Buttons", type := "select",
      options := ["2", "3", "5", "7", "12"] }]
  else if deviceType = "Keyboard" then some [
    { name := "keyboardType", label := "Keyboard Type", type := "select",
      options := ["Membrane", "Mechanical", "Optical"] },
    { name := "layout", label := "Layout", type := "select",
      options := ["Full Size", "TKL", "60%", "40%"] },
    { name := "connectivity", label := "Connectivity", type := "select",
      options := ["Wired", "Wireless", "Bluetooth"] }]
  else none

/-! ## Event handlers -/

/-- The handler `handleDeviceTypeChange`; `value` is `e.target.value`. -/
def handleDeviceTypeChange (_formData : Selection) (value : String) : Selection :=
  { deviceType := value, manufacturer := "", specifications := [] }

/-- The handler `handleManufacturerChange`; `value` is `e.target.value`. -/
def handleManufacturerChange (formData : Selection) (value : String) : Selection :=
  { formData with manufacturer := value, specifications := [] }

/-- The handler `handleSpecChange`; `value` is `e.target.value`. -/
def handleSpecChange (formData : Selection) (fieldName value : String) : Selection :=
  { formData with specifications := formData.specifications.set fieldName value }

/-- What `handleSubmit` sends out: the object logged after the text `Order placed:`
and the text of the alert. -/
structure SubmitOutput where
  logged : Selection
  alert : String
  deriving DecidableEq, Repr

/-- The handler `handleSubmit`. -/
def handleSubmit (formData : Selection) : SubmitOutput :=
  { logged := formData, alert := "Order placed successfully!" }

/-! ## Rendering

The JSX tree returned by the component, reduced to what the user can see and act on:
the three kinds of `<select>` with their option values, the specification block
(which holds the submit button) and the summary panel.  Class names, icons and
static text are left out.  The result is `none` when evaluation throws, which
happens exactly when `.map` is called on a missing catalog entry. -/

/-- A rendered `<select>`: its `value`, its `required` attribute and the `value` of
each `<option>` in document order (the blank placeholder first). -/
structure SelectView where
  value : String
  required : Bool
  options : List String
  deriving DecidableEq, Repr

/-- One entry of the specification block: the `<div key={field.name}>` with its label
and the select whose `onChange` calls `handleSpecChange(e, field.name)`. -/
structure SpecFieldView where
  name : String
  label : String
  select : SelectView
  deriving DecidableEq, Repr

/-- The summary panel; `specList` is the `<ul>` of `Object.entries`, when shown. -/
structure SummaryView where
  deviceType : String
  manufacturer : String
  specList : Option (List (String × String))
  deriving DecidableEq, Repr

/-- The rendered form.  `specBlock` is the specifications block, which contains the
specification selects and the submit button. -/
structure View where
  deviceSelect : SelectView
  manufacturerSelect : Option SelectView
  specBlock : Option (List SpecFieldView)
  summary : Option SummaryView
  deriving DecidableEq, Repr

/-- The guard `formData.deviceType && (...)` of the manufacturer select. -/
def showManufacturerSelect (formData : Selection) : Bool :=
  truthy formData.deviceType

/-- The guard `formData.deviceType && formData.manufacturer && (...)` of the
specifications block and its submit button. -/
def showSpecifications (formData : Selection) : Bool :=
  truthy formData.deviceType && truthy formData.manufacturer

/-- The guard `formData.manufacturer && (...)` of the summary panel. -/
def showSummary (formData : Selection) : Bool :=
  truthy formData.manufacturer

/-- The guard `Object.keys(formData.specifications).length > 0 && (...)`, which sits
inside the summary panel. -/
def showSummarySpecs (formData : Selection) : Bool :=
  decide (formData.specifications.keys.length > 0)

/-- The expression `formData.specifications[field.name] || ''`. -/
def specValue (formData : Selection) (fieldName : String) : String :=
  match formData.specifications.get fieldName with
  | some v => if truthy v then v else ""
  | none => ""

/-- The select of one specification field: the body of
`specificationFields[formData.deviceType].map((field) => ...)`. -/
def specFieldView (formData : Selection) (field : FieldDescriptor) : SpecFieldView :=
  { name := field.name, label := field.label,
    select := { value := specValue formData field.name, required := true,
                options := "" :: field.options } }

/-- The manufacturer part of the form: `some none` when the guard hides it, `none` when
`manufacturers[formData.deviceType].map` throws. -/
def renderManufacturerSelect (formData : Selection) : Option (Option SelectView) :=
  if showManufacturerSelect formData then
    match manufacturers formData.deviceType with
    | some ms =>
        some (some { value := formData.manufacturer, required := true, options := "" :: ms })
    | none => none
  else some none

/-- The specifications block: `some none` when the guard hides it, `none` when
`specificationFields[formData.deviceType].map` throws. -/
def renderSpecifications (formData : Selection) : Option (Option (List SpecFieldView)) :=
  if showSpecifications formData then
    match specificationFields formData.deviceType with
    | some fields => some (some (fields.map (specFieldView formData)))
    | none => none
  else some none

/-- The summary column. -/
def renderSummary (formData : Selection) : Option SummaryView :=
  if showSummary formData then
    some { deviceType := formData.deviceType, manufacturer := formData.manufacturer,
           specList := if showSummarySpecs formData then some formData.specifications
                       else none }
  else none

/-- The `return (...)` of the component. -/
def render (formData : Selection) : Option View :=
  match renderManufacturerSelect formData, renderSpecifications formData with
  | some manufacturerSelect, some specBlock =>
      some { deviceSelect := { value := formData.deviceType, required := true,
                               options := "" :: deviceTypes },
             manufacturerSelect := manufacturerSelect,
             specBlock := specBlock,
             summary := renderSummary formData }
  | _, _ => none

/-! ## User events -/

/-- A change event on one of the selects. -/
inductive Event where
  | deviceTypeChange (value : String)
  | manufacturerChange (value : String)
  | specChange (fieldName value : String)
  deriving DecidableEq, Repr

/-- An event can be fired on a view when the select it comes from is rendered and the
chosen value is the value of one of its options. -/
def offered (view : View) : Event → Bool
  | .deviceTypeChange value => decide (value ∈ view.deviceSelect.options)
  | .manufacturerChange value =>
      match view.manufacturerSelect with
      | some sel => decide (value ∈ sel.options)
      | none => false
  | .specChange fieldName value =>
      match view.specBlock with
      | some fields =>
          fields.any fun f => decide (f.name = fieldName) && decide (value ∈ f.select.options)
      | none => false

/-- The handler bound to the select the event comes from. -/
def handle (formData : Selection) : Event → Selection
  | .deviceTypeChange value => handleDeviceTypeChange formData value
  | .manufacturerChange value => handleManufacturerChange formData value
  | .specChange fieldName value => handleSpecChange formData fieldName value

/-- One user interaction: the state is rendered, the event must be offered by the
rendered view, the handler gives the next state. -/
def step (formData : Selection) (e : Event) : Option Selection :=
  match render formData with
  | some view => if offered view e then some (handle formData e) else none
  | none => none

/-- A sequence of user interactions, processed one after the other. -/
def run (formData : Selection) : List Event → Option Selection
  | [] => some formData
  | e :: es =>
      match step formData e with
      | some next => run next es
      | none => none

/-- A select with the `required` attribute blocks form submission while its selected
option is the blank placeholder. -/
def SelectView.valid (sel : SelectView) : Bool :=
  !sel.required || truthy sel.value

/-- Every select of the rendered form. -/
def View.selects (view : View) : List SelectView :=
  view.deviceSelect :: (view.manufacturerSelect.toList
    ++ (view.specBlock.getD []).map SpecFieldView.select)

/-- A click on the submit button: the button must be rendered, the form fires
`onSubmit` only when every required select has a value, and then `handleSubmit`
runs on the current `formData`. -/
def placeOrder (formData : Selection) : Option SubmitOutput :=
  match render formData with
  | some view =>
      if view.specBlock.isSome && view.selects.all SelectView.valid then
        some (handleSubmit formData)
      else none
  | none => none

/-- The invariant of the data model: a chosen manufacturer belongs to the chosen
device type, and every specification key is a field name of that device type. -/
def Invariant (s : Selection) : Prop :=
  (s.manufacturer ≠ "" →
    s.deviceType ≠ "" ∧ ∃ ms, manufacturers s.deviceType = some ms ∧ s.manufacturer ∈ ms) ∧
  ∀ k ∈ s.specifications.keys,
    ∃ fields, specificationFields s.deviceType = some fields ∧
      k ∈ fields.map FieldDescriptor.name

/-- The events of the Laptop/Dell scenario. -/
def laptopDellEvents : List Event :=
  [.deviceTypeChange "Laptop", .manufacturerChange "Dell",
   .specChange "processor" "Intel i7", .specChange "ram" "16",
   .specChange "storage" "512", .specChange "screenSize" "15.6"]

/-- The selection the Laptop/Dell scenario ends in. -/
def laptopDellSelection : Selection :=
  { deviceType := "Laptop", manufacturer := "Dell",
    specifications := [("processor", "Intel i7"), ("ram", "16"), ("storage", "512"),
                       ("screenSize", "15.6")] }

/-! ## Lemmas on plain objects -/

theorem JsObject.get_set_self (obj : JsObject) (key value : String) :
    (obj.set key value).get key = some value := by
  induction obj with
  | nil => simp [JsObject.set, JsObject.get]
  | cons p rest ih =>
    obtain ⟨k, v⟩ := p
    by_cases h : k = key
    · simp [JsObject.set, JsObject.get, h]
    · simp [JsObject.set, JsObject.get, h, ih]

theorem JsObject.get_set_of_ne (obj : JsObject) (key value k : String) (hk : k ≠ key) :
    (obj.set key value).get k = obj.get k := by
  induction obj with
  | nil =>
    have : ¬ key = k := fun h => hk h.symm
    simp [JsObject.set, JsObject.get, this]
  | cons p rest ih =>
    obtain ⟨k0, v0⟩ := p
    by_cases h : k0 = key
    · have : ¬ key = k := fun h => hk h.symm
      simp [JsObject.set, JsObject.get, h, this]
    · by_cases h2 : k0 = k
      · subst h2
        simp [JsObject.set, JsObject.get, hk]
      · simp [JsObject.set, JsObject.get, h, h2, ih]

theorem JsObject.mem_keys_iff (obj : JsObject) (k : String) :
    k ∈ obj.keys ↔ ∃ v, obj.get k = some v := by
  induction obj with
  | nil => simp [JsObject.keys, JsObject.get]
  | cons p rest ih =>
    obtain ⟨k0, v0⟩ := p
    have ih2 : k ∈ List.map Prod.fst rest ↔ ∃ v, JsObject.get rest k = some v := ih
    by_cases h : k0 = k
    · simp [JsObject.keys, JsObject.get, h]
    · have h2 : ¬ k = k0 := fun e => h e.symm
      simp only [JsObject.keys, JsObject.get, h, h2, List.map_cons, List.mem_cons, if_false,
        false_or]
      exact ih2

theorem JsObject.mem_keys_set (obj : JsObject) (key value k : String) :
    k ∈ (obj.set key value).keys ↔ k = key ∨ k ∈ obj.keys := by
  by_cases h : k = key
  · subst h
    simp only [true_or, iff_true]
    exact (JsObject.mem_keys_iff _ _).2 ⟨value, JsObject.get_set_self obj k value⟩
  · rw [JsObject.mem_keys_iff, JsObject.mem_keys_iff, JsObject.get_set_of_ne obj key value k h]
    simp [h]

theorem JsObject.nodup_keys_set (obj : JsObject) (key value : String)
    (h : obj.keys.Nodup) : (obj.set key value).keys.Nodup := by
  induction obj with
  | nil => simp [JsObject.set, JsObject.keys]
  | cons p rest ih =>
    obtain ⟨k0, v0⟩ := p
    have hk : k0 ∉ JsObject.keys rest ∧ (JsObject.keys rest).Nodup := by
      simpa [JsObject.keys] using h
    by_cases e : k0 = key
    · simpa [JsObject.set, JsObject.keys, e] using h
    · have hn : k0 ∉ JsObject.keys (JsObject.set rest key value) := by
        rw [JsObject.mem_keys_set]
        exact fun c => c.elim e hk.1
      have := ih hk.2
      simp only [JsObject.set, e, if_false, JsObject.keys, List.map_cons, List.nodup_cons]
      exact ⟨hn, this⟩

/-! ## The handlers -/

/-- C1: whatever the old state, `handleDeviceTypeChange` with value `t` gives exactly
the state with device type `t`, manufacturer `""` and an empty specifications object
(no keys). -/
theorem handleDeviceTypeChange_resets (s : Selection) (t : String) :
    handleDeviceTypeChange s t = { deviceType := t, manufacturer := "", specifications := [] }
      ∧ (handleDeviceTypeChange s t).manufacturer = ""
      ∧ (handleDeviceTypeChange s t).specifications.keys = []
      ∧ ∀ s2 : Selection, handleDeviceTypeChange s2 t = handleDeviceTypeChange s t :=
  ⟨rfl, rfl, rfl, fun _ => rfl⟩

/-- C2: `handleManufacturerChange` with value `m` sets the manufacturer to `m`, empties
the specifications object and leaves the device type as it was. -/
theorem handleManufacturerChange_frame (s : Selection) (m : String) :
    (handleManufacturerChange s m).manufacturer = m
      ∧ (handleManufacturerChange s m).specifications = []
      ∧ (handleManufacturerChange s m).specifications.keys = []
      ∧ (handleManufacturerChange s m).deviceType = s.deviceType :=
  ⟨rfl, rfl, rfl, rfl⟩

/-- C3: `handleSpecChange` with field `f` and value `v` makes the specifications object
map `f` to `v`, leaves every other key as it was (same value if present, absent if
absent) and leaves device type and manufacturer as they were. -/
theorem handleSpecChange_frame (s : Selection) (f v : String) :
    (handleSpecChange s f v).specifications.get f = some v
      ∧ (∀ k, k ≠ f →
          (handleSpecChange s f v).specifications.get k = s.specifications.get k
          ∧ (k ∈ (handleSpecChange s f v).specifications.keys ↔ k ∈ s.specifications.keys))
      ∧ (handleSpecChange s f v).deviceType = s.deviceType
      ∧ (handleSpecChange s f v).manufacturer = s.manufacturer := by
  refine ⟨JsObject.get_set_self _ _ _, fun k hk => ⟨JsObject.get_set_of_ne _ _ _ _ hk, ?_⟩,
    rfl, rfl⟩
  show k ∈ (s.specifications.set f v).keys ↔ _
  rw [JsObject.mem_keys_set]
  simp [hk]

/-! ## Lemmas on the catalog and the renderer -/

theorem truthy_iff (x : String) : truthy x = true ↔ x ≠ "" := by
  simp [truthy]

theorem manufacturers_isSome_iff (t : String) :
    (manufacturers t).isSome = true ↔ t ∈ deviceTypes := by
  unfold manufacturers deviceTypes
  split_ifs <;> simp_all

theorem specificationFields_isSome_iff (t : String) :
    (specificationFields t).isSome = true ↔ t ∈ deviceTypes := by
  unfold specificationFields deviceTypes
  split_ifs <;> simp_all

theorem render_eq_some {s : Selection} {view : View} (h : render s = some view) :
    ∃ m b, renderManufacturerSelect s = some m ∧ renderSpecifications s = some b ∧
      view = { deviceSelect := { value := s.deviceType, required := true,
                                 options := "" :: deviceTypes },
               manufacturerSelect := m, specBlock := b, summary := renderSummary s } := by
  unfold render at h
  split at h
  · rename_i m b hm hb
    exact ⟨m, b, hm, hb, (Option.some.inj h).symm⟩
  · exact absurd h (by simp)

theorem render_manufacturerSelect_some {s : Selection} {view : View} {sel : SelectView}
    (h : render s = some view) (hs : view.manufacturerSelect = some sel) :
    s.deviceType ≠ "" ∧ ∃ ms, manufacturers s.deviceType = some ms ∧
      sel = { value := s.manufacturer, required := true, options := "" :: ms } := by
  obtain ⟨m, b, hm, -, rfl⟩ := render_eq_some h
  simp only at hs
  subst hs
  unfold renderManufacturerSelect at hm
  split at hm
  · rename_i c
    refine ⟨(truthy_iff _).1 c, ?_⟩
    split at hm
    · rename_i ms hms
      exact ⟨ms, hms, (Option.some.inj (Option.some.inj hm)).symm⟩
    · exact absurd hm (by simp)
  · exact absurd (Option.some.inj hm) (by simp)

theorem render_specBlock_some {s : Selection} {view : View} {fields : List SpecFieldView}
    (h : render s = some view) (hs : view.specBlock = some fields) :
    s.deviceType ≠ "" ∧ s.manufacturer ≠ "" ∧
      ∃ fds, specificationFields s.deviceType = some fds ∧
        fields = fds.map (specFieldView s) := by
  obtain ⟨m, b, -, hb, rfl⟩ := render_eq_some h
  simp only at hs
  subst hs
  unfold renderSpecifications at hb
  split at hb
  · rename_i c
    simp only [showSpecifications, Bool.and_eq_true] at c
    refine ⟨(truthy_iff _).1 c.1, (truthy_iff _).1 c.2, ?_⟩
    split at hb
    · rename_i fds hfds
      exact ⟨fds, hfds, (Option.some.inj (Option.some.inj hb)).symm⟩
    · exact absurd hb (by simp)
  · exact absurd (Option.some.inj hb) (by simp)

theorem render_isSome_iff (s : Selection) :
    (render s).isSome = true ↔ (s.deviceType = "" ∨ s.deviceType ∈ deviceTypes) := by
  have hm := manufacturers_isSome_iff s.deviceType
  have hf := specificationFields_isSome_iff s.deviceType
  unfold render renderManufacturerSelect renderSpecifications showManufacturerSelect
    showSpecifications
  by_cases c : s.deviceType = ""
  · simp [c, truthy]
  · have ct : truthy s.deviceType = true := (truthy_iff _).2 c
    by_cases cd : s.deviceType ∈ deviceTypes
    · obtain ⟨ms, hms⟩ := Option.isSome_iff_exists.1 (hm.2 cd)
      obtain ⟨fs, hfs⟩ := Option.isSome_iff_exists.1 (hf.2 cd)
      by_cases cm : truthy s.manufacturer = true
      · simp [ct, hms, hfs, cm, cd]
      · simp [ct, hms, hfs, cm, cd]
    · have hmn : manufacturers s.deviceType = none := by
        cases hx : manufacturers s.deviceType with
        | none => rfl
        | some ms => exact absurd (hm.1 (by simp [hx])) cd
      simp [ct, hmn, c, cd]

/-! ## Lemmas on user events -/

theorem step_deviceTypeChange {s next : Selection} {t : String}
    (h : step s (.deviceTypeChange t) = some next) :
    (t = "" ∨ t ∈ deviceTypes) ∧ next = handleDeviceTypeChange s t := by
  unfold step at h
  split at h
  · rename_i view hv
    split at h
    · rename_i ho
      obtain ⟨m, b, -, -, rfl⟩ := render_eq_some hv
      simp only [offered, decide_eq_true_eq, List.mem_cons] at ho
      exact ⟨ho, (Option.some.inj h).symm⟩
    · exact absurd h (by simp)
  · exact absurd h (by simp)

theorem step_manufacturerChange {s next : Selection} {m : String}
    (h : step s (.manufacturerChange m) = some next) :
    s.deviceType ≠ "" ∧ (∃ ms, manufacturers s.deviceType = some ms ∧ (m = "" ∨ m ∈ ms))
      ∧ next = handleManufacturerChange s m := by
  unfold step at h
  split at h
  · rename_i view hv
    split at h
    · rename_i ho
      simp only [offered] at ho
      split at ho
      · rename_i sel hsel
        obtain ⟨hd, ms, hms, rfl⟩ := render_manufacturerSelect_some hv hsel
        simp only [decide_eq_true_eq, List.mem_cons] at ho
        exact ⟨hd, ⟨ms, hms, ho⟩, (Option.some.inj h).symm⟩
      · exact absurd ho (by simp)
    · exact absurd h (by simp)
  · exact absurd h (by simp)

theorem step_specChange {s next : Selection} {f x : String}
    (h : step s (.specChange f x) = some next) :
    s.deviceType ≠ "" ∧ s.manufacturer ≠ ""
      ∧ (∃ fds, specificationFields s.deviceType = some fds ∧
          ∃ fd ∈ fds, fd.name = f ∧ (x = "" ∨ x ∈ fd.options))
      ∧ next = handleSpecChange s f x := by
  unfold step at h
  split at h
  · rename_i view hv
    split at h
    · rename_i ho
      simp only [offered] at ho
      split at ho
      · rename_i fields hfields
        obtain ⟨hd, hm, fds, hfds, rfl⟩ := render_specBlock_some hv hfields
        simp only [List.any_eq_true, List.mem_map, Bool.and_eq_true, decide_eq_true_eq] at ho
        obtain ⟨fv, ⟨fd, hfd, rfl⟩, hname, hopt⟩ := ho
        simp only [specFieldView, List.mem_cons] at hname hopt
        exact ⟨hd, hm, ⟨fds, hfds, fd, hfd, hname, hopt⟩, (Option.some.inj h).symm⟩
      · exact absurd ho (by simp)
    · exact absurd h (by simp)
  · exact absurd h (by simp)

/-- In a state that renders, the device select offers the blank placeholder and the
four device types, whatever the state. -/
theorem step_deviceTypeChange_iff (s : Selection)
    (hk : s.deviceType = "" ∨ s.deviceType ∈ deviceTypes) (t : String) :
    step s (.deviceTypeChange t) = some (handleDeviceTypeChange s t) ↔
      (t = "" ∨ t ∈ deviceTypes) := by
  refine ⟨fun h => (step_deviceTypeChange h).1, fun h => ?_⟩
  obtain ⟨view, hview⟩ := Option.isSome_iff_exists.1 ((render_isSome_iff s).2 hk)
  obtain ⟨m, b, -, -, hv⟩ := render_eq_some hview
  have ho : offered view (.deviceTypeChange t) = true := by
    rw [hv]
    simpa [offered] using h
  simp [step, hview, ho, handle]

/-- In a state that renders, the manufacturer select is offered exactly when the device
type is non-empty, with the blank placeholder and `manufacturers[deviceType]`. -/
theorem step_manufacturerChange_iff (s : Selection)
    (hk : s.deviceType = "" ∨ s.deviceType ∈ deviceTypes) (m : String) :
    step s (.manufacturerChange m) = some (handleManufacturerChange s m) ↔
      (s.deviceType ≠ "" ∧ ∃ ms, manufacturers s.deviceType = some ms ∧ (m = "" ∨ m ∈ ms)) := by
  refine ⟨fun h => ⟨(step_manufacturerChange h).1, (step_manufacturerChange h).2.1⟩, ?_⟩
  rintro ⟨hd, ms, hms, hmem⟩
  obtain ⟨view, hview⟩ := Option.isSome_iff_exists.1 ((render_isSome_iff s).2 hk)
  obtain ⟨sel, b, hsel, -, hv⟩ := render_eq_some hview
  have hs : sel = some { value := s.manufacturer, required := true, options := "" :: ms } := by
    simp only [renderManufacturerSelect, showManufacturerSelect, (truthy_iff _).2 hd, if_true,
      hms, Option.some.injEq] at hsel
    exact hsel.symm
  have ho : offered view (.manufacturerChange m) = true := by
    rw [hv, hs]
    simpa [offered] using hmem
  simp [step, hview, ho, handle]

/-- In a state that renders, a specification select is offered exactly when device type
and manufacturer are non-empty, one per descriptor of `specificationFields[deviceType]`,
with the blank placeholder and the options of the descriptor. -/
theorem step_specChange_iff (s : Selection)
    (hk : s.deviceType = "" ∨ s.deviceType ∈ deviceTypes) (f x : String) :
    step s (.specChange f x) = some (handleSpecChange s f x) ↔
      (s.deviceType ≠ "" ∧ s.manufacturer ≠ "" ∧
        ∃ fds, specificationFields s.deviceType = some fds ∧
          ∃ fd ∈ fds, fd.name = f ∧ (x = "" ∨ x ∈ fd.options)) := by
  refine ⟨fun h => ⟨(step_specChange h).1, (step_specChange h).2.1, (step_specChange h).2.2.1⟩, ?_⟩
  rintro ⟨hd, hm, fds, hfds, fd, hfd, hname, hmem⟩
  obtain ⟨view, hview⟩ := Option.isSome_iff_exists.1 ((render_isSome_iff s).2 hk)
  obtain ⟨sel, b, -, hb, hv⟩ := render_eq_some hview
  have hs : b = some (fds.map (specFieldView s)) := by
    simp only [renderSpecifications, showSpecifications, (truthy_iff _).2 hd,
      (truthy_iff _).2 hm, Bool.and_self, if_true, hfds, Option.some.injEq] at hb
    exact hb.symm
  have ho : offered view (.specChange f x) = true := by
    rw [hv, hs]
    simp only [offered, List.any_eq_true, List.mem_map, Bool.and_eq_true, decide_eq_true_eq]
    exact ⟨specFieldView s fd, ⟨fd, hfd, rfl⟩, hname, by simpa [specFieldView] using hmem⟩
  simp [step, hview, ho, handle]

theorem run_induction {P : Selection → Prop}
    (hstep : ∀ s e next, P s → step s e = some next → P next) :
    ∀ (es : List Event) (s last : Selection), P s → run s es = some last → P last := by
  intro es
  induction es with
  | nil =>
    intro s last hs h
    simp only [run, Option.some.injEq] at h
    exact h ▸ hs
  | cons e es ih =>
    intro s last hs h
    unfold run at h
    split at h
    · rename_i next hn
      exact ih next last (hstep s e next hs hn) h
    · exact absurd h (by simp)

theorem step_known {s next : Selection} {e : Event}
    (h : step s e = some next) (hs : s.deviceType = "" ∨ s.deviceType ∈ deviceTypes) :
    next.deviceType = "" ∨ next.deviceType ∈ deviceTypes := by
  cases e with
  | deviceTypeChange t =>
    obtain ⟨ht, rfl⟩ := step_deviceTypeChange h
    exact ht
  | manufacturerChange m =>
    obtain ⟨-, -, rfl⟩ := step_manufacturerChange h
    exact hs
  | specChange f x =>
    obtain ⟨-, -, -, rfl⟩ := step_specChange h
    exact hs

theorem step_invariant {s next : Selection} {e : Event}
    (h : step s e = some next) (hs : Invariant s) : Invariant next := by
  cases e with
  | deviceTypeChange t =>
    obtain ⟨-, rfl⟩ := step_deviceTypeChange h
    refine ⟨fun hm => absurd rfl hm, ?_⟩
    intro k hk
    simp [handleDeviceTypeChange, JsObject.keys] at hk
  | manufacturerChange m =>
    obtain ⟨hd, ⟨ms, hms, hmem⟩, rfl⟩ := step_manufacturerChange h
    refine ⟨fun hm => ⟨hd, ms, hms, ?_⟩, ?_⟩
    · exact hmem.resolve_left hm
    · intro k hk
      simp [handleManufacturerChange, JsObject.keys] at hk
  | specChange f x =>
    obtain ⟨-, -, ⟨fds, hfds, fd, hfd, hname, -⟩, rfl⟩ := step_specChange h
    refine ⟨hs.1, ?_⟩
    intro k hk
    have hk2 : k = f ∨ k ∈ s.specifications.keys := (JsObject.mem_keys_set _ _ _ _).1 hk
    rcases hk2 with rfl | hk2
    · exact ⟨fds, hfds, List.mem_map.2 ⟨fd, hfd, hname⟩⟩
    · exact hs.2 k hk2

theorem invariant_initial : Invariant initialFormData :=
  ⟨fun h => absurd rfl h, fun k hk => by simp [initialFormData, JsObject.keys] at hk⟩

theorem run_invariant {es : List Event} {s : Selection}
    (h : run initialFormData es = some s) : Invariant s :=
  run_induction (fun _ _ _ hs hn => step_invariant hn hs) es _ _ invariant_initial h

theorem run_known {es : List Event} {s : Selection}
    (h : run initialFormData es = some s) :
    s.deviceType = "" ∨ s.deviceType ∈ deviceTypes :=
  run_induction (P := fun s => s.deviceType = "" ∨ s.deviceType ∈ deviceTypes)
    (fun _ _ _ hs hn => step_known hn hs) es _ _ (Or.inl rfl) h

/-- The specifications object of a reachable state is a well-formed object: no key
occurs twice in the association list. -/
theorem run_nodup_keys {es : List Event} {s : Selection}
    (h : run initialFormData es = some s) : s.specifications.keys.Nodup := by
  have h0 : initialFormData.specifications.keys.Nodup := List.nodup_nil
  refine run_induction (P := fun s => s.specifications.keys.Nodup) ?_ es initialFormData s
    h0 h
  intro s e next hs hn
  cases e with
  | deviceTypeChange t =>
    obtain ⟨-, rfl⟩ := step_deviceTypeChange hn
    exact List.nodup_nil
  | manufacturerChange m =>
    obtain ⟨-, -, rfl⟩ := step_manufacturerChange hn
    exact List.nodup_nil
  | specChange f x =>
    obtain ⟨-, -, -, rfl⟩ := step_specChange hn
    exact JsObject.nodup_keys_set _ _ _ hs

theorem specValue_ne_empty {s : Selection} {f : String} (h : specValue s f ≠ "") :
    f ∈ s.specifications.keys := by
  unfold specValue at h
  split at h
  · rename_i v hv
    exact (JsObject.mem_keys_iff _ _).2 ⟨v, hv⟩
  · exact absurd rfl h

theorem placeOrder_eq_some {s : Selection} {out : SubmitOutput}
    (h : placeOrder s = some out) :
    s.deviceType ≠ "" ∧ s.manufacturer ≠ ""
      ∧ (∃ fds, specificationFields s.deviceType = some fds ∧
          ∀ fd ∈ fds, specValue s fd.name ≠ "")
      ∧ out = handleSubmit s := by
  unfold placeOrder at h
  split at h
  · rename_i view hv
    split at h
    · rename_i hc
      simp only [Bool.and_eq_true, Option.isSome_iff_exists] at hc
      obtain ⟨⟨fields, hfields⟩, hall⟩ := hc
      obtain ⟨hd, hm, fds, hfds, rfl⟩ := render_specBlock_some hv hfields
      refine ⟨hd, hm, ⟨fds, hfds, ?_⟩, (Option.some.inj h).symm⟩
      intro fd hfd
      have hsel : (specFieldView s fd).select ∈ view.selects := by
        simp only [View.selects, hfields, Option.getD_some, List.mem_cons, List.mem_append,
          List.mem_map]
        exact Or.inr (Or.inr ⟨specFieldView s fd, ⟨fd, hfd, rfl⟩, rfl⟩)
      have hvalid := List.all_eq_true.1 hall _ hsel
      simpa [SelectView.valid, specFieldView, truthy] using hvalid
    · exact absurd h (by simp)
  · exact absurd h (by simp)

/-! ## Reachable states -/

/-- C5: every state reached from the initial `formData` by change events that the
rendered selects offer satisfies the data-model invariant: a non-empty manufacturer
comes with a non-empty device type and is listed in `manufacturers[deviceType]`, and
every key of `specifications` is the name of a descriptor in
`specificationFields[deviceType]`. -/
theorem selection_invariant_reachable (es : List Event) (s : Selection)
    (h : run initialFormData es = some s) :
    (s.manufacturer ≠ "" →
      s.deviceType ≠ "" ∧ ∃ ms, manufacturers s.deviceType = some ms ∧ s.manufacturer ∈ ms)
    ∧ ∀ k ∈ s.specifications.keys,
        ∃ fields, specificationFields s.deviceType = some fields ∧
          ∃ fd ∈ fields, fd.name = k := by
  have hinv := run_invariant h
  refine ⟨hinv.1, fun k hk => ?_⟩
  obtain ⟨fields, hf, hmem⟩ := hinv.2 k hk
  exact ⟨fields, hf, List.mem_map.1 hmem⟩

/-- Witness for C5 at the Laptop/Dell scenario. -/
theorem selection_invariant_reachable_witness :
    run initialFormData laptopDellEvents = some laptopDellSelection
    ∧ ((laptopDellSelection.manufacturer ≠ "" →
        laptopDellSelection.deviceType ≠ "" ∧
          ∃ ms, manufacturers laptopDellSelection.deviceType = some ms ∧
            laptopDellSelection.manufacturer ∈ ms)
      ∧ ∀ k ∈ laptopDellSelection.specifications.keys,
          ∃ fields, specificationFields laptopDellSelection.deviceType = some fields ∧
            ∃ fd ∈ fields, fd.name = k) :=
  ⟨by decide, selection_invariant_reachable laptopDellEvents laptopDellSelection (by decide)⟩

/-- C4: in a reachable state in which a click on the submit button makes `handleSubmit`
emit the selection, the device type and the manufacturer are non-empty and the keys of
`specifications` are exactly the descriptor names of `specificationFields[deviceType]`;
what is emitted is the current selection. -/
theorem submit_only_when_complete (es : List Event) (s : Selection) (out : SubmitOutput)
    (hrun : run initialFormData es = some s) (hsubmit : placeOrder s = some out) :
    s.deviceType ≠ "" ∧ s.manufacturer ≠ ""
    ∧ (∃ fds, specificationFields s.deviceType = some fds ∧
        ∀ k, k ∈ s.specifications.keys ↔ k ∈ fds.map FieldDescriptor.name)
    ∧ out.logged = s := by
  obtain ⟨hd, hm, ⟨fds, hfds, hall⟩, hout⟩ := placeOrder_eq_some hsubmit
  refine ⟨hd, hm, ⟨fds, hfds, fun k => ⟨fun hk => ?_, fun hk => ?_⟩⟩, by rw [hout]; rfl⟩
  · obtain ⟨fields, hf, hmem⟩ := (run_invariant hrun).2 k hk
    rw [hfds] at hf
    exact (Option.some.inj hf) ▸ hmem
  · obtain ⟨fd, hfd, rfl⟩ := List.mem_map.1 hk
    exact specValue_ne_empty (hall fd hfd)

/-- Witness for C4 at the Laptop/Dell scenario. -/
theorem submit_only_when_complete_witness :
    run initialFormData laptopDellEvents = some laptopDellSelection
    ∧ placeOrder laptopDellSelection = some (handleSubmit laptopDellSelection)
    ∧ (laptopDellSelection.deviceType ≠ "" ∧ laptopDellSelection.manufacturer ≠ ""
      ∧ (∃ fds, specificationFields laptopDellSelection.deviceType = some fds ∧
          ∀ k, k ∈ laptopDellSelection.specifications.keys ↔
            k ∈ fds.map FieldDescriptor.name)
      ∧ (handleSubmit laptopDellSelection).logged = laptopDellSelection) :=
  ⟨by decide, by decide,
    submit_only_when_complete laptopDellEvents laptopDellSelection
      (handleSubmit laptopDellSelection) (by decide) (by decide)⟩

/-- The guard of the submit button alone does not make the selection complete: right
after the manufacturer is chosen the button is rendered, and the `required` selects
keep the click from reaching `handleSubmit`. -/
theorem placeOrder_blocked_when_incomplete :
    run initialFormData [.deviceTypeChange "Laptop", .manufacturerChange "Dell"]
      = some { deviceType := "Laptop", manufacturer := "Dell", specifications := [] }
    ∧ showSpecifications { deviceType := "Laptop", manufacturer := "Dell",
                           specifications := [] } = true
    ∧ placeOrder { deviceType := "Laptop", manufacturer := "Dell", specifications := [] }
        = none := by
  decide

/-- C7: in every reachable state rendering completes, and whenever the device type is
non-empty (so that `manufacturers[deviceType]`, and with a manufacturer also
`specificationFields[deviceType]`, is read) it is one of the four `deviceTypes` and
both tables hold a list for it; every element of `deviceTypes` is a key of both
tables. -/
theorem no_catalog_lookup_miss (es : List Event) (s : Selection)
    (h : run initialFormData es = some s) :
    (render s).isSome = true
    ∧ (s.deviceType ≠ "" →
        s.deviceType ∈ deviceTypes
        ∧ (manufacturers s.deviceType).isSome = true
        ∧ (specificationFields s.deviceType).isSome = true)
    ∧ deviceTypes.length = 4
    ∧ ∀ t ∈ deviceTypes,
        (manufacturers t).isSome = true ∧ (specificationFields t).isSome = true := by
  have hk := run_known h
  refine ⟨(render_isSome_iff s).2 hk, fun hd => ?_, rfl, fun t ht => ?_⟩
  · have hmem := hk.resolve_left hd
    exact ⟨hmem, (manufacturers_isSome_iff _).2 hmem, (specificationFields_isSome_iff _).2 hmem⟩
  · exact ⟨(manufacturers_isSome_iff _).2 ht, (specificationFields_isSome_iff _).2 ht⟩

/-- Witness for C7 at the Mouse then Keyboard scenario. -/
theorem no_catalog_lookup_miss_witness :
    run initialFormData [.deviceTypeChange "Mouse", .deviceTypeChange "Keyboard"]
      = some { deviceType := "Keyboard", manufacturer := "", specifications := [] }
    ∧ (render { deviceType := "Keyboard", manufacturer := "", specifications := [] }).isSome
        = true
    ∧ manufacturers "Keyboard" = some ["Logitech", "Corsair", "Razer", "Keychron"] :=
  ⟨by decide,
    (no_catalog_lookup_miss [.deviceTypeChange "Mouse", .deviceTypeChange "Keyboard"]
      { deviceType := "Keyboard", manufacturer := "", specifications := [] } (by decide)).1,
    by decide⟩

/-! ## Visibility -/

/-- C6: for a selection whose manufacturer is non-empty only if its device type is
non-empty, the visibility decisions of the renderer are: manufacturer select iff the
device type is non-empty; specifications block (with the submit button) iff the
manufacturer is non-empty; summary panel iff the manufacturer is non-empty; summary
specification list iff the summary panel is shown and `specifications` has a key.
The same holds of the rendered view whenever the device type is empty or listed in
`deviceTypes`, where rendering completes. -/
theorem render_visibility (s : Selection) (hinv : s.manufacturer ≠ "" → s.deviceType ≠ "") :
    (showManufacturerSelect s = true ↔ s.deviceType ≠ "")
    ∧ (showSpecifications s = true ↔ s.manufacturer ≠ "")
    ∧ ((renderSummary s).isSome = true ↔ s.manufacturer ≠ "")
    ∧ ((∃ sm, renderSummary s = some sm ∧ sm.specList.isSome = true) ↔
        ((renderSummary s).isSome = true ∧ ∃ k, k ∈ s.specifications.keys))
    ∧ ((s.deviceType = "" ∨ s.deviceType ∈ deviceTypes) →
        ∃ view, render s = some view
          ∧ (view.manufacturerSelect.isSome = true ↔ s.deviceType ≠ "")
          ∧ (view.specBlock.isSome = true ↔ s.manufacturer ≠ "")
          ∧ (view.summary.isSome = true ↔ s.manufacturer ≠ "")
          ∧ ((∃ sm, view.summary = some sm ∧ sm.specList.isSome = true) ↔
              (view.summary.isSome = true ∧ ∃ k, k ∈ s.specifications.keys))) := by
  have h1 : showManufacturerSelect s = true ↔ s.deviceType ≠ "" := truthy_iff _
  have h2 : showSpecifications s = true ↔ s.manufacturer ≠ "" := by
    simp only [showSpecifications, Bool.and_eq_true, truthy_iff]
    exact ⟨fun h => h.2, fun h => ⟨hinv h, h⟩⟩
  have hkeys : showSummarySpecs s = true ↔ ∃ k, k ∈ s.specifications.keys := by
    simp only [showSummarySpecs, decide_eq_true_eq, gt_iff_lt, List.length_pos_iff_exists_mem]
  have h3 : (renderSummary s).isSome = true ↔ s.manufacturer ≠ "" := by
    unfold renderSummary showSummary
    by_cases c : truthy s.manufacturer = true
    · simp only [c, if_true, Option.isSome_some, true_iff]
      exact (truthy_iff _).1 c
    · have hc : ¬ s.manufacturer ≠ "" := fun h => c ((truthy_iff _).2 h)
      simp [c, hc]
  have h4 : (∃ sm, renderSummary s = some sm ∧ sm.specList.isSome = true) ↔
      ((renderSummary s).isSome = true ∧ ∃ k, k ∈ s.specifications.keys) := by
    rw [← hkeys]
    unfold renderSummary
    by_cases c : showSummary s = true
    · by_cases d : showSummarySpecs s = true
      · simp [c, d]
      · simp [c, d]
    · simp [c]
  refine ⟨h1, h2, h3, h4, fun hk => ?_⟩
  obtain ⟨view, hview⟩ := Option.isSome_iff_exists.1 ((render_isSome_iff s).2 hk)
  obtain ⟨m, b, hm, hb, rfl⟩ := render_eq_some hview
  refine ⟨_, hview, ?_, ?_, h3, h4⟩
  · show m.isSome = true ↔ _
    rw [← h1]
    unfold renderManufacturerSelect at hm
    by_cases c : showManufacturerSelect s = true
    · simp only [c, if_true] at hm
      split at hm
      · rw [← Option.some.inj hm]; simp [c]
      · exact absurd hm (by simp)
    · simp only [c] at hm
      rw [← Option.some.inj hm]; simp [c]
  · show b.isSome = true ↔ _
    rw [← h2]
    unfold renderSpecifications at hb
    by_cases c : showSpecifications s = true
    · simp only [c, if_true] at hb
      split at hb
      · rw [← Option.some.inj hb]; simp [c]
      · exact absurd hb (by simp)
    · simp only [c] at hb
      rw [← Option.some.inj hb]; simp [c]

/-- Witness for C6 at the selection Monitor / LG with one specification set. -/
theorem render_visibility_witness :
    (("LG" : String) ≠ "" → ("Monitor" : String) ≠ "")
    ∧ showManufacturerSelect
        { deviceType := "Monitor", manufacturer := "LG",
          specifications := [("resolution", "4K")] } = true
    ∧ ∃ view, render { deviceType := "Monitor", manufacturer := "LG",
                       specifications := [("resolution", "4K")] } = some view
        ∧ (view.specBlock.isSome = true ↔ ("LG" : String) ≠ "") :=
  have h := render_visibility
    { deviceType := "Monitor", manufacturer := "LG", specifications := [("resolution", "4K")] }
    (fun _ => by decide)
  ⟨fun _ => by decide, h.1.2 (by decide),
    (h.2.2.2.2 (Or.inr (by decide))).imp fun _ hv => ⟨hv.1, hv.2.2.1⟩⟩

/-! ## Scenarios -/

/-- C8: the Laptop/Dell scenario.  After choosing Laptop the manufacturer options are
Dell, HP, Apple, Lenovo, ASUS (after the blank placeholder); after choosing Dell the
specification fields are processor, ram, storage, screenSize; after setting the four
fields to offered values, `handleSubmit` emits the selection Laptop / Dell with the
four values. -/
theorem laptop_dell_scenario :
    step initialFormData (.deviceTypeChange "Laptop")
      = some { deviceType := "Laptop", manufacturer := "", specifications := [] }
    ∧ manufacturers "Laptop" = some ["Dell", "HP", "Apple", "Lenovo", "ASUS"]
    ∧ (render { deviceType := "Laptop", manufacturer := "", specifications := [] }).map
        (fun view => view.manufacturerSelect.map SelectView.options)
      = some (some ["", "Dell", "HP", "Apple", "Lenovo", "ASUS"])
    ∧ step { deviceType := "Laptop", manufacturer := "", specifications := [] }
        (.manufacturerChange "Dell")
      = some { deviceType := "Laptop", manufacturer := "Dell", specifications := [] }
    ∧ (render { deviceType := "Laptop", manufacturer := "Dell", specifications := [] }).map
        (fun view => view.specBlock.map (List.map SpecFieldView.name))
      = some (some ["processor", "ram", "storage", "screenSize"])
    ∧ run { deviceType := "Laptop", manufacturer := "Dell", specifications := [] }
        [.specChange "processor" "Intel i7", .specChange "ram" "16",
         .specChange "storage" "512", .specChange "screenSize" "15.6"]
      = some { deviceType := "Laptop", manufacturer := "Dell",
               specifications := [("processor", "Intel i7"), ("ram", "16"),
                                  ("storage", "512"), ("screenSize", "15.6")] }
    ∧ (placeOrder { deviceType := "Laptop", manufacturer := "Dell",
                    specifications := [("processor", "Intel i7"), ("ram", "16"),
                                       ("storage", "512"), ("screenSize", "15.6")] }).map
        SubmitOutput.logged
      = some { deviceType := "Laptop", manufacturer := "Dell",
               specifications := [("processor", "Intel i7"), ("ram", "16"),
                                  ("storage", "512"), ("screenSize", "15.6")] } := by
  decide

/-- C9: the Mouse then Keyboard scenario.  Choosing Mouse and then Keyboard, with no
manufacturer chosen, gives the state Keyboard with empty manufacturer and empty
specifications, and the manufacturer options are Logitech, Corsair, Razer, Keychron
(after the blank placeholder). -/
theorem mouse_keyboard_scenario :
    handleDeviceTypeChange (handleDeviceTypeChange initialFormData "Mouse") "Keyboard"
      = { deviceType := "Keyboard", manufacturer := "", specifications := [] }
    ∧ run initialFormData [.deviceTypeChange "Mouse", .deviceTypeChange "Keyboard"]
      = some { deviceType := "Keyboard", manufacturer := "", specifications := [] }
    ∧ manufacturers "Keyboard" = some ["Logitech", "Corsair", "Razer", "Keychron"]
    ∧ (render { deviceType := "Keyboard", manufacturer := "", specifications := [] }).map
        (fun view => view.manufacturerSelect.map SelectView.options)
      = some (some ["", "Logitech", "Corsair", "Razer", "Keychron"]) := by
  decide

/-! ## The catalog -/

/-- C10: the catalog has no duplicates.  `deviceTypes` has no repeated entry; each
list of `manufacturers` has no repeated entry; the descriptor names of each list of
`specificationFields` are pairwise distinct; each options list has no repeated entry
and does not contain the empty string.  So two different descriptors of one device
type have different names, and no offered option is the blank placeholder. -/
theorem catalog_duplicate_free :
    deviceTypes.Nodup
    ∧ (∀ t ms, manufacturers t = some ms → ms.Nodup)
    ∧ (∀ t fds, specificationFields t = some fds →
        (fds.map FieldDescriptor.name).Nodup
        ∧ (∀ fd ∈ fds, fd.options.Nodup ∧ "" ∉ fd.options)
        ∧ ∀ i j (hi : i < fds.length) (hj : j < fds.length), i ≠ j →
            (fds.get ⟨i, hi⟩).name ≠ (fds.get ⟨j, hj⟩).name) := by
  refine ⟨by decide, ?_, ?_⟩
  · intro t ms h
    unfold manufacturers at h
    split_ifs at h <;> cases h <;> decide
  · intro t fds h
    have key : (fds.map FieldDescriptor.name).Nodup
        ∧ (∀ fd ∈ fds, fd.options.Nodup ∧ "" ∉ fd.options) := by
      unfold specificationFields at h
      split_ifs at h <;> cases h <;> decide
    refine ⟨key.1, key.2, ?_⟩
    intro i j hi hj hij heq
    have hinj := (List.nodup_iff_injective_get.1 key.1)
    have hi2 : i < (fds.map FieldDescriptor.name).length := by simpa using hi
    have hj2 : j < (fds.map FieldDescriptor.name).length := by simpa using hj
    have : (⟨i, hi2⟩ : Fin (fds.map FieldDescriptor.name).length) = ⟨j, hj2⟩ := by
      apply hinj
      simpa using heq
    exact hij (Fin.mk.inj this)

/-- Witness for C10 at the Keyboard entries of the catalog. -/
theorem catalog_duplicate_free_witness :
    (["Logitech", "Corsair", "Razer", "Keychron"] : List String).Nodup
    ∧ ∀ fds, specificationFields "Keyboard" = some fds →
        (fds.map FieldDescriptor.name).Nodup :=
  ⟨catalog_duplicate_free.2.1 "Keyboard" _ (by decide),
    fun fds h => (catalog_duplicate_free.2.2 "Keyboard" fds h).1⟩

end DynamicProductForm
